import Mathlib

/-!
# Verification of the BRUH image container codec

Shallow embedding of `src/main.rs` of the `better-bruh` repository: the
fixed 12-byte header (magic, width, height, all `u32`, `repr(C)`, written
in the target's little-endian byte order), the raw-pointer header decoder
`BruhHeader::from_raw`, the file decoder `get_bruh_image_data`, the
encoder `image_to_bruh` (row-major RGBA serialization, header ++ pixels,
destination-path computation), and the CLI error reporting in
`handle_matches` / `main`.

Bytes are modelled as `Nat` (with value < 256 where a claim needs it);
`u32` values as `Nat` below `2^32`. A null pointer argument is modelled
as `none`; a `ptr::read` that would go past the end of the provided
buffer is undefined behavior in the source and is modelled by the
distinguished outcome `BruhResult.outOfBoundsRead`.
-/

/-- The magic constant from the source:
`'B' as u32 | ('R' as u32) << 8 | ('U' as u32) << 16 | ('H' as u32) << 24`. -/
def BRUH_MAGIC_NUMBER : Nat :=
  'B'.toNat ||| 'R'.toNat <<< 8 ||| 'U'.toNat <<< 16 ||| 'H'.toNat <<< 24

/-- `struct BruhHeader { magic: u32, width: u32, height: u32 }` (`repr(C)`). -/
structure BruhHeader where
  magic : Nat
  width : Nat
  height : Nat
deriving DecidableEq, Repr

/-- Little-endian byte decomposition of a `u32` value: the four bytes of
`n` in memory on the (little-endian) target the source asserts at compile
time via `assert_bruh_magic_num`. -/
def le32 (n : Nat) : List Nat :=
  [n % 256, n / 256 % 256, n / 65536 % 256, n / 16777216 % 256]

/-- `BruhHeader::bytes`: the source transmutes `&BruhHeader` to
`&[u8; 12]`. Under `repr(C)` with three `u32` fields there is no padding,
so the byte image is the little-endian bytes of `magic`, then of `width`,
then of `height`. -/
def BruhHeader.bytes (h : BruhHeader) : List Nat :=
  le32 h.magic ++ le32 h.width ++ le32 h.height

/-- `const BRUH_HEADER_SIZE: usize = size_of::<BruhHeader>();` = 12. -/
def BRUH_HEADER_SIZE : Nat := 12

/-- Outcome of a decode call. `invalidInput` is the
"Null pointer to from_raw provided" error, `formatMismatch` the
"File was not in BRUH format" error; `outOfBoundsRead` marks the
undefined behavior of `ptr::read` reading past the end of the buffer. -/
inductive BruhResult (α : Type) where
  | ok (val : α)
  | invalidInput
  | formatMismatch
  | outOfBoundsRead
deriving DecidableEq, Repr

/-- The `u32` value whose four bytes in memory are `b0 b1 b2 b3`, on the
little-endian target: how `ptr::read` assembles each header field. -/
def u32le (b0 b1 b2 b3 : Nat) : Nat :=
  b0 + b1 * 256 + b2 * 65536 + b3 * 16777216

/-- `BruhHeader::from_raw(ptr)`: rejects a null pointer with the
`InvalidInput` error, then `ptr::read`s the 12 bytes at `ptr`
unconditionally (an out-of-bounds read — undefined behavior — when fewer
than 12 bytes are available), and rejects a magic field different from
`BRUH_MAGIC_NUMBER` with `FormatMismatch`. -/
def from_raw (p : Option (List Nat)) : BruhResult BruhHeader :=
  match p with
  | none => .invalidInput
  | some (b0 :: b1 :: b2 :: b3 :: b4 :: b5 :: b6 :: b7 ::
      b8 :: b9 :: b10 :: b11 :: _) =>
    let header : BruhHeader :=
      ⟨u32le b0 b1 b2 b3, u32le b4 b5 b6 b7, u32le b8 b9 b10 b11⟩
    if header.magic ≠ BRUH_MAGIC_NUMBER then .formatMismatch
    else .ok header
  | some _ => .outOfBoundsRead

/-- `get_bruh_image_data`: read the whole file into `contents`, parse the
header from `contents.as_ptr()` (a `Vec`'s pointer is never null), drain
the first `BRUH_HEADER_SIZE` bytes, and return header and remainder. -/
def get_bruh_image_data (contents : List Nat) :
    BruhResult (BruhHeader × List Nat) :=
  match from_raw (some contents) with
  | .ok header => .ok (header, contents.drop BRUH_HEADER_SIZE)
  | .invalidInput => .invalidInput
  | .formatMismatch => .formatMismatch
  | .outOfBoundsRead => .outOfBoundsRead

/-- One RGBA pixel as exposed by the `image` crate (`u8` channels). -/
structure Pixel where
  r : Nat
  g : Nat
  b : Nat
  a : Nat
deriving DecidableEq, Repr

/-- A decoded bitmap (`DynamicImage`): `u32` dimensions and per-pixel
RGBA channel access; `pixel x y` is `get_pixel(x, y)`. -/
structure Image where
  width : Nat
  height : Nat
  pixel : Nat → Nat → Pixel

/-- The four bytes the encoder pushes for one pixel:
`data.push(pixel.2.0[0]); ... [1]; ... [2]; ... [3]` — R, G, B, A. -/
def pixelBytes (p : Pixel) : List Nat := [p.r, p.g, p.b, p.a]

/-- The bytes of one row `y`, left-to-right. -/
def rowBytes (img : Image) (y : Nat) : List Nat :=
  (List.range img.width).flatMap fun x => pixelBytes (img.pixel x y)

/-- The encoder's pixel loop `for pixel in img.pixels()`: the `image`
crate's `pixels()` iterator visits `(x, y)` for `y` in `0..height`, and
for each `y`, `x` in `0..width` — row-major order. -/
def serializePixels (img : Image) : List Nat :=
  (List.range img.height).flatMap fun y => rowBytes img y

/-- `BruhHeader::from(&DynamicImage)`: magic constant plus the image's
dimensions. -/
def bruhHeaderOfImage (img : Image) : BruhHeader :=
  ⟨BRUH_MAGIC_NUMBER, img.width, img.height⟩

/-- The byte content `image_to_bruh` writes to the destination file:
`file.write_all(header.bytes())` then `file.write_all(&data)`. -/
def image_to_bruh_bytes (img : Image) : List Nat :=
  (bruhHeaderOfImage img).bytes ++ serializePixels img

/-- Rust's `str::rfind(".")`: index of the last occurrence of `c`. -/
def rfindChar (s : List Char) (c : Char) : Option Nat :=
  match s with
  | [] => none
  | a :: rest =>
    match rfindChar rest c with
    | some i => some (i + 1)
    | none => if a = c then some 0 else none

/-- The destination-path computation in `image_to_bruh`:
`match path_str.rfind(".") { None => path_str + ".bruh",
Some(idx) => path_str[..idx] + ".bruh" }`. -/
def bruh_path (path_str : List Char) : List Char :=
  match rfindChar path_str '.' with
  | none => path_str ++ ".bruh".toList
  | some idx => path_str.take idx ++ ".bruh".toList

/-- An error value as seen by the CLI layer: only its `Display` text. -/
structure CliError where
  message : String
deriving DecidableEq, Repr

/-- The convert branch of `handle_matches`:
`Ok(()) => println!("Successfully converted PNG to BRUH")`,
`Err(_) => println!("Failed to convert PNG to BRUH")`. -/
def handle_convert_output (r : Except CliError Unit) : String :=
  match r with
  | .ok _ => "Successfully converted PNG to BRUH"
  | .error _ => "Failed to convert PNG to BRUH"

/-- The view branch of `handle_matches`: `get_bruh_image_data(&path)?`
propagates any decode error to the caller unchanged. -/
def handle_matches_view (r : Except CliError (BruhHeader × List Nat)) :
    Except CliError Unit :=
  match r with
  | .ok _ => .ok ()
  | .error e => .error e

/-- `main`'s reporting: `Err(e) => eprintln!("{e}")` prints the error's
`Display` text; `Ok(_)` prints nothing. -/
def main_output (r : Except CliError Unit) : Option String :=
  match r with
  | .ok _ => none
  | .error e => some e.message

/-- The 2×2 example image of the spec's pixel-addressing property. -/
def examplePixels : List Pixel :=
  [⟨255, 0, 0, 255⟩, ⟨0, 255, 0, 255⟩, ⟨0, 0, 255, 255⟩, ⟨255, 255, 255, 0⟩]

/-- The 2×2 example image with row-major pixels
(255,0,0,255), (0,255,0,255), (0,0,255,255), (255,255,255,0). -/
def exampleImage : Image where
  width := 2
  height := 2
  pixel := fun x y => (examplePixels.getD (y * 2 + x) ⟨0, 0, 0, 0⟩)

/-! ## Helper lemmas -/

theorem le32_length (n : Nat) : (le32 n).length = 4 := rfl

theorem pixelBytes_length (p : Pixel) : (pixelBytes p).length = 4 := rfl

theorem flatMap_range_const_length (f : Nat → List Nat) (c : Nat)
    (hc : ∀ i, (f i).length = c) (n : Nat) :
    ((List.range n).flatMap f).length = n * c := by
  induction n with
  | zero => simp
  | succ n ih =>
    rw [List.range_succ, List.flatMap_append, List.length_append, ih]
    simp [hc, Nat.succ_mul]

theorem flatMap_range_drop (f : Nat → List Nat) (c : Nat)
    (hc : ∀ i, (f i).length = c) (n y : Nat) (hy : y < n) :
    ∃ rest, ((List.range n).flatMap f).drop (y * c) = f y ++ rest := by
  induction n with
  | zero => omega
  | succ n ih =>
    rw [List.range_succ, List.flatMap_append]
    rcases Nat.lt_or_ge y n with h | h
    · obtain ⟨rest, hrest⟩ := ih h
      have hlen : y * c ≤ ((List.range n).flatMap f).length := by
        rw [flatMap_range_const_length f c hc]
        exact Nat.mul_le_mul_right c (Nat.le_of_lt h)
      refine ⟨rest ++ [n].flatMap f, ?_⟩
      rw [List.drop_append_of_le_length hlen, hrest, List.append_assoc]
    · have hyn : y = n := by omega
      subst hyn
      have hlen : y * c = ((List.range y).flatMap f).length :=
        (flatMap_range_const_length f c hc y).symm
      rw [hlen, List.drop_left]
      exact ⟨[], by simp⟩

theorem rowBytes_def (img : Image) (y : Nat) :
    rowBytes img y =
      (List.range img.width).flatMap fun x => pixelBytes (img.pixel x y) := rfl

theorem serializePixels_def (img : Image) :
    serializePixels img = (List.range img.height).flatMap (rowBytes img) := rfl

theorem rowBytes_length (img : Image) (y : Nat) :
    (rowBytes img y).length = img.width * 4 := by
  rw [rowBytes_def]
  exact flatMap_range_const_length _ 4 (fun x => pixelBytes_length _) img.width

theorem serializePixels_length (img : Image) :
    (serializePixels img).length = img.width * img.height * 4 := by
  rw [serializePixels_def,
    flatMap_range_const_length (rowBytes img) (img.width * 4)
      (rowBytes_length img) img.height]
  ring

theorem serializePixels_slice (img : Image) (x y : Nat)
    (hx : x < img.width) (hy : y < img.height) :
    ((serializePixels img).drop ((y * img.width + x) * 4)).take 4 =
      pixelBytes (img.pixel x y) := by
  obtain ⟨rest1, h1⟩ := flatMap_range_drop (rowBytes img) (img.width * 4)
    (rowBytes_length img) img.height y hy
  obtain ⟨rest2, h2⟩ := flatMap_range_drop
    (fun x => pixelBytes (img.pixel x y)) 4 (fun x => pixelBytes_length _)
    img.width x hx
  rw [← rowBytes_def] at h2
  have harith : (y * img.width + x) * 4 = y * (img.width * 4) + x * 4 := by ring
  rw [harith, ← List.drop_drop, serializePixels_def, h1,
    List.drop_append_of_le_length (by
      rw [rowBytes_length]; exact Nat.mul_le_mul_right 4 (Nat.le_of_lt hx)),
    h2, List.append_assoc,
    show (4 : Nat) = (pixelBytes (img.pixel x y)).length from rfl,
    List.take_left]

theorem u32le_le32 (n : Nat) (hn : n < 4294967296) :
    u32le (n % 256) (n / 256 % 256) (n / 65536 % 256) (n / 16777216 % 256) =
      n := by
  rw [u32le]
  omega

theorem u32le_magic : u32le 66 82 85 72 = BRUH_MAGIC_NUMBER := by decide

theorem from_raw_header_append (w h : Nat) (hw : w < 4294967296)
    (hh : h < 4294967296) (data : List Nat) :
    from_raw (some ((BruhHeader.mk BRUH_MAGIC_NUMBER w h).bytes ++ data)) =
      .ok ⟨BRUH_MAGIC_NUMBER, w, h⟩ := by
  have hb : (BruhHeader.mk BRUH_MAGIC_NUMBER w h).bytes ++ data =
      66 :: 82 :: 85 :: 72 :: (w % 256) :: (w / 256 % 256) ::
      (w / 65536 % 256) :: (w / 16777216 % 256) :: (h % 256) ::
      (h / 256 % 256) :: (h / 65536 % 256) :: (h / 16777216 % 256) :: data := by
    simp [BruhHeader.bytes, le32]
    decide
  rw [hb]
  show (if u32le 66 82 85 72 ≠ BRUH_MAGIC_NUMBER
      then (BruhResult.formatMismatch : BruhResult BruhHeader)
      else .ok ⟨u32le 66 82 85 72,
        u32le (w % 256) (w / 256 % 256) (w / 65536 % 256) (w / 16777216 % 256),
        u32le (h % 256) (h / 256 % 256) (h / 65536 % 256)
          (h / 16777216 % 256)⟩) =
    .ok ⟨BRUH_MAGIC_NUMBER, w, h⟩
  rw [if_neg (fun hne => hne u32le_magic), u32le_magic,
    u32le_le32 w hw, u32le_le32 h hh]

theorem rfindChar_eq_none (s : List Char) (c : Char) (h : c ∉ s) :
    rfindChar s c = none := by
  induction s with
  | nil => rfl
  | cons a t ih =>
    rw [List.mem_cons, not_or] at h
    rw [rfindChar, ih h.2, if_neg (fun hac => h.1 (hac.symm))]

theorem rfindChar_append_last (s₁ s₂ : List Char) (c : Char) (h : c ∉ s₂) :
    rfindChar (s₁ ++ c :: s₂) c = some s₁.length := by
  induction s₁ with
  | nil =>
    rw [List.nil_append, rfindChar, rfindChar_eq_none s₂ c h, if_pos rfl]
    rfl
  | cons a t ih =>
    rw [List.cons_append, rfindChar, ih]
    rfl

/-! ## Claims -/

/-- C1 counterexample: the empty buffer has length < 12, yet decoding it
does not fail with the `InvalidInput` error — `from_raw` only checks the
pointer for null and then `ptr::read`s 12 bytes regardless, an
out-of-bounds read. -/
theorem c1_short_buffer_counterexample :
    from_raw (some ([] : List Nat)) ≠ BruhResult.invalidInput ∧
    from_raw (some ([] : List Nat)) = BruhResult.outOfBoundsRead ∧
    get_bruh_image_data ([] : List Nat) ≠ BruhResult.invalidInput := by
  refine ⟨?_, rfl, ?_⟩ <;> decide

/-- C1 (amended): decoding fails with `InvalidInput` only for a
null/absent source; for every non-null buffer of length < 12 the decode
instead reads past the end of the buffer (undefined behavior), both in
`from_raw` and in `get_bruh_image_data`. -/
theorem c1_short_buffer_amended :
    from_raw none = BruhResult.invalidInput ∧
    ∀ buf : List Nat, buf.length < 12 →
      from_raw (some buf) = BruhResult.outOfBoundsRead ∧
      get_bruh_image_data buf = BruhResult.outOfBoundsRead := by
  refine ⟨rfl, fun buf h => ?_⟩
  rcases buf with _ | ⟨b0, _ | ⟨b1, _ | ⟨b2, _ | ⟨b3, _ | ⟨b4, _ | ⟨b5,
    _ | ⟨b6, _ | ⟨b7, _ | ⟨b8, _ | ⟨b9, _ | ⟨b10, _ | ⟨b11, rest⟩⟩⟩⟩⟩⟩⟩⟩⟩⟩⟩⟩
  all_goals try exact ⟨rfl, rfl⟩
  exfalso
  simp at h
  omega

/-- C1 amended witness: a concrete 3-byte buffer. -/
theorem c1_short_buffer_amended_witness :
    from_raw (some [1, 2, 3]) = BruhResult.outOfBoundsRead ∧
    get_bruh_image_data [1, 2, 3] = BruhResult.outOfBoundsRead :=
  c1_short_buffer_amended.2 [1, 2, 3] (by decide)

/-- C2: a buffer of at least 12 bytes whose first 4 bytes differ from
`0x42 0x52 0x55 0x48` is rejected by `from_raw` with the
`FormatMismatch` error, whatever the remaining bytes hold. -/
theorem c2_magic_rejection (buf : List Nat) (hlen : 12 ≤ buf.length)
    (hbytes : ∀ b ∈ buf, b < 256)
    (hm : buf.take 4 ≠ [0x42, 0x52, 0x55, 0x48]) :
    from_raw (some buf) = BruhResult.formatMismatch := by
  rcases buf with _ | ⟨b0, _ | ⟨b1, _ | ⟨b2, _ | ⟨b3, _ | ⟨b4, _ | ⟨b5,
    _ | ⟨b6, _ | ⟨b7, _ | ⟨b8, _ | ⟨b9, _ | ⟨b10, _ | ⟨b11, rest⟩⟩⟩⟩⟩⟩⟩⟩⟩⟩⟩⟩ <;>
    simp at hlen
  have h0 : b0 < 256 := hbytes b0 (by simp)
  have h1 : b1 < 256 := hbytes b1 (by simp)
  have h2 : b2 < 256 := hbytes b2 (by simp)
  have h3 : b3 < 256 := hbytes b3 (by simp)
  simp [List.take] at hm
  have hne : u32le b0 b1 b2 b3 ≠ BRUH_MAGIC_NUMBER := by
    have hMval : BRUH_MAGIC_NUMBER = 1213551170 := by decide
    rw [u32le, hMval]
    omega
  show (if u32le b0 b1 b2 b3 ≠ BRUH_MAGIC_NUMBER
      then (BruhResult.formatMismatch : BruhResult BruhHeader)
      else .ok ⟨u32le b0 b1 b2 b3, u32le b4 b5 b6 b7, u32le b8 b9 b10 b11⟩) =
    BruhResult.formatMismatch
  rw [if_pos hne]

/-- C2 witness: twelve zero bytes are rejected as `FormatMismatch`. -/
theorem c2_magic_rejection_witness :
    from_raw (some [0, 0, 0, 0, 0, 0, 0, 0, 0, 0, 0, 0]) =
      BruhResult.formatMismatch :=
  c2_magic_rejection [0, 0, 0, 0, 0, 0, 0, 0, 0, 0, 0, 0]
    (by decide) (by decide) (by decide)

/-- C4: for any `u32` width and height, the encoded header is the 12-byte
sequence magic-bytes ++ little-endian width ++ little-endian height, with
`le32` genuinely the little-endian encoding (it reassembles to the
original value); `BruhHeader.bytes` is a total function — it cannot
fail. -/
theorem c4_header_layout (w h : Nat) (hw : w < 4294967296)
    (hh : h < 4294967296) :
    ((BruhHeader.mk BRUH_MAGIC_NUMBER w h).bytes).length = 12 ∧
    ((BruhHeader.mk BRUH_MAGIC_NUMBER w h).bytes).take 4 =
      [0x42, 0x52, 0x55, 0x48] ∧
    (((BruhHeader.mk BRUH_MAGIC_NUMBER w h).bytes).drop 4).take 4 = le32 w ∧
    ((BruhHeader.mk BRUH_MAGIC_NUMBER w h).bytes).drop 8 = le32 h ∧
    u32le (w % 256) (w / 256 % 256) (w / 65536 % 256) (w / 16777216 % 256) =
      w ∧
    u32le (h % 256) (h / 256 % 256) (h / 65536 % 256) (h / 16777216 % 256) =
      h := by
  refine ⟨?_, ?_, ?_, ?_, u32le_le32 w hw, u32le_le32 h hh⟩ <;>
    simp [BruhHeader.bytes, le32] <;> try decide

/-- C4 witness at width 5, height 7. -/
theorem c4_header_layout_witness :
    ((BruhHeader.mk BRUH_MAGIC_NUMBER 5 7).bytes).length = 12 ∧
    ((BruhHeader.mk BRUH_MAGIC_NUMBER 5 7).bytes).take 4 =
      [0x42, 0x52, 0x55, 0x48] ∧
    (((BruhHeader.mk BRUH_MAGIC_NUMBER 5 7).bytes).drop 4).take 4 = le32 5 ∧
    ((BruhHeader.mk BRUH_MAGIC_NUMBER 5 7).bytes).drop 8 = le32 7 ∧
    u32le (5 % 256) (5 / 256 % 256) (5 / 65536 % 256) (5 / 16777216 % 256) =
      5 ∧
    u32le (7 % 256) (7 / 256 % 256) (7 / 65536 % 256) (7 / 16777216 % 256) =
      7 :=
  c4_header_layout 5 7 (by decide) (by decide)

/-- C5: the encoded header is exactly 12 bytes long for every 32-bit
width and height. -/
theorem c5_header_size (w h : Nat) (hw : w < 4294967296)
    (hh : h < 4294967296) :
    ((BruhHeader.mk BRUH_MAGIC_NUMBER w h).bytes).length = 12 := by
  simp [BruhHeader.bytes, le32]

/-- C5 witness at the largest 32-bit dimensions. -/
theorem c5_header_size_witness :
    ((BruhHeader.mk BRUH_MAGIC_NUMBER 4294967295 4294967295).bytes).length =
      12 :=
  c5_header_size 4294967295 4294967295 (by decide) (by decide)

/-- C7: any buffer that starts with the 4 magic bytes and has at least 12
bytes decodes successfully to the little-endian width and height read
from bytes 4–7 and 8–11 — for arbitrary width/height bytes (including
all-zero dimensions) and arbitrarily many or few remaining bytes: the
magic check is the sole structural validation `from_raw` performs. -/
theorem c7_magic_only_validation (b4 b5 b6 b7 b8 b9 b10 b11 : Nat)
    (rest : List Nat) :
    from_raw (some (0x42 :: 0x52 :: 0x55 :: 0x48 :: b4 :: b5 :: b6 :: b7 ::
      b8 :: b9 :: b10 :: b11 :: rest)) =
      .ok ⟨BRUH_MAGIC_NUMBER, u32le b4 b5 b6 b7, u32le b8 b9 b10 b11⟩ := by
  show (if u32le 66 82 85 72 ≠ BRUH_MAGIC_NUMBER
      then (BruhResult.formatMismatch : BruhResult BruhHeader)
      else .ok ⟨u32le 66 82 85 72, u32le b4 b5 b6 b7, u32le b8 b9 b10 b11⟩) =
    .ok ⟨BRUH_MAGIC_NUMBER, u32le b4 b5 b6 b7, u32le b8 b9 b10 b11⟩
  rw [if_neg (fun hne => hne u32le_magic), u32le_magic]

/-- C3: encoding any image with positive 32-bit dimensions and decoding
the resulting file succeeds and yields exactly the encoder's own
row-major RGBA serialization, along with the original header. -/
theorem c3_roundtrip (img : Image) (hw0 : 0 < img.width)
    (hh0 : 0 < img.height) (hw : img.width < 4294967296)
    (hh : img.height < 4294967296) :
    get_bruh_image_data (image_to_bruh_bytes img) =
      .ok (bruhHeaderOfImage img, serializePixels img) := by
  have henc : image_to_bruh_bytes img =
      (BruhHeader.mk BRUH_MAGIC_NUMBER img.width img.height).bytes ++
        serializePixels img := rfl
  have hdrop : ((BruhHeader.mk BRUH_MAGIC_NUMBER img.width
      img.height).bytes ++ serializePixels img).drop BRUH_HEADER_SIZE =
      serializePixels img := by
    rw [show BRUH_HEADER_SIZE = ((BruhHeader.mk BRUH_MAGIC_NUMBER img.width
      img.height).bytes).length from rfl, List.drop_left]
  rw [get_bruh_image_data, henc,
    from_raw_header_append img.width img.height hw hh, hdrop]
  rfl

/-- C3 witness: round trip of the concrete 2×2 example image. -/
theorem c3_roundtrip_witness :
    get_bruh_image_data (image_to_bruh_bytes exampleImage) =
      .ok (bruhHeaderOfImage exampleImage, serializePixels exampleImage) :=
  c3_roundtrip exampleImage (by decide) (by decide) (by decide) (by decide)

/-- C6: the serialization has length `width * height * 4`, the 4 bytes at
offset `(y * width + x) * 4` are exactly R, G, B, A of pixel `(x, y)`
(row-major traversal), and the 2×2 example image serializes to
`FF 00 00 FF 00 FF 00 FF 00 00 FF FF FF FF FF 00`. -/
theorem c6_pixel_serialization (img : Image) (x y : Nat)
    (hx : x < img.width) (hy : y < img.height) :
    (serializePixels img).length = img.width * img.height * 4 ∧
    ((serializePixels img).drop ((y * img.width + x) * 4)).take 4 =
      pixelBytes (img.pixel x y) ∧
    serializePixels exampleImage =
      [0xFF, 0x00, 0x00, 0xFF, 0x00, 0xFF, 0x00, 0xFF,
       0x00, 0x00, 0xFF, 0xFF, 0xFF, 0xFF, 0xFF, 0x00] :=
  ⟨serializePixels_length img, serializePixels_slice img x y hx hy,
    by decide⟩

/-- C6 witness: the bottom-right pixel of the 2×2 example image. -/
theorem c6_pixel_serialization_witness :
    (serializePixels exampleImage).length =
      exampleImage.width * exampleImage.height * 4 ∧
    ((serializePixels exampleImage).drop
      ((1 * exampleImage.width + 1) * 4)).take 4 =
      pixelBytes (exampleImage.pixel 1 1) ∧
    serializePixels exampleImage =
      [0xFF, 0x00, 0x00, 0xFF, 0x00, 0xFF, 0x00, 0xFF,
       0x00, 0x00, 0xFF, 0xFF, 0xFF, 0xFF, 0xFF, 0x00] :=
  c6_pixel_serialization exampleImage 1 1 (by decide) (by decide)

/-- C8: the conversion maps `foo.png` to `foo.bruh` and the
extension-less `foo` to `foo.bruh`. -/
theorem c8_extension_handling :
    bruh_path "foo.png".toList = "foo.bruh".toList ∧
    bruh_path "foo".toList = "foo.bruh".toList := by
  constructor <;> rfl

/-- C9: on any encode (convert) failure the CLI prints the same generic
message, independent of which error occurred; on any decode (view)
failure the error's textual description is surfaced directly. -/
theorem c9_error_surfacing (e e₁ e₂ : CliError) :
    handle_convert_output (Except.error e) =
      "Failed to convert PNG to BRUH" ∧
    handle_convert_output (Except.error e₁) =
      handle_convert_output (Except.error e₂) ∧
    main_output (handle_matches_view (Except.error e)) = some e.message :=
  ⟨rfl, rfl, rfl⟩

/-- C10: when the path contains a dot, the destination is the prefix up
to the last dot anywhere in the full path string, with `.bruh` appended —
even when that dot sits in a directory component. -/
theorem c10_last_dot_truncation (s₁ s₂ : List Char) (h : '.' ∉ s₂) :
    bruh_path (s₁ ++ '.' :: s₂) = s₁ ++ ".bruh".toList := by
  rw [bruh_path, rfindChar_append_last s₁ s₂ '.' h]
  show (s₁ ++ '.' :: s₂).take s₁.length ++ ".bruh".toList =
    s₁ ++ ".bruh".toList
  rw [List.take_append_of_le_length (Nat.le_refl _), List.take_length]

/-- C10 witness: source path `dir.v2/foo` becomes `dir.bruh`, not
`dir.v2/foo.bruh`. -/
theorem c10_last_dot_truncation_witness :
    bruh_path ("dir".toList ++ '.' :: "v2/foo".toList) =
      "dir".toList ++ ".bruh".toList ∧
    "dir".toList ++ '.' :: "v2/foo".toList = "dir.v2/foo".toList ∧
    "dir".toList ++ ".bruh".toList = "dir.bruh".toList ∧
    "dir.bruh".toList ≠ "dir.v2/foo.bruh".toList :=
  ⟨c10_last_dot_truncation "dir".toList "v2/foo".toList (by decide),
    by decide, by decide, by decide⟩
